import Mathlib

/-!
Verification development for the go-zetasqlite SQL execution engine core.

The embedding covers:
* the tagged Value union of the value model (spec section 3), together with
  the self-describing, length-prefixed cell encoding of spec section 4.2
  (the encoder source file is not part of the provided sources, so the
  encoder and decoder here are modelled from the spec);
* the scalar-function bind layer of internal/function_bind.go: argument
  arity checks, NULL handling, and dispatch to the typed implementations
  (the typed implementations themselves live in a source file that is not
  provided and are modelled from the spec where needed);
* the Aggregator and WindowAggregator step machines of
  internal/function_bind.go, with the DISTINCT and IGNORE NULLS options;
* a spec-modelled catalog state machine for CREATE TABLE / CREATE TEMP
  TABLE and a spec-modelled wildcard-table expansion.

Values that may be NULL are represented as Option Value, mirroring the Go
code where SQL NULL is a nil Value interface. A nil-interface method call
in Go is a runtime panic; such calls are modelled as errors carrying the
Go runtime panic message.
-/

/- The tagged Value union of the value model (spec section 3).
Float64 carries the IEEE-754 bit pattern as a natural number, NUMERIC and
BIGNUMERIC carry the scaled fixed-point integer, DATE carries days since
epoch, TIME nanoseconds of day, DATETIME and TIMESTAMP microseconds, JSON
its canonical textual form. -/
mutual

inductive Value where
  | null
  | int64 (n : Int)
  | float64 (bits : Nat)
  | boolV (b : Bool)
  | stringV (s : String)
  | bytes (b : List Nat)
  | numeric (scaled : Int)
  | bignumeric (scaled : Int)
  | date (days : Int)
  | time (nanosOfDay : Int)
  | datetime (micros : Int)
  | timestamp (micros : Int)
  | interval (months : Int) (days : Int) (nanos : Int)
  | json (text : String)
  | array (elems : ValueList)
  | structV (fields : FieldList)
  | safe (inner : Value)

inductive ValueList where
  | nil
  | cons (head : Value) (tail : ValueList)

inductive FieldList where
  | nil
  | cons (name : Option String) (val : Value) (tail : FieldList)

end

/-- Tokens of the modelled cell encoding: a self-describing tag followed by
a payload, as described in spec section 4.2. -/
inductive Tok where
  | nat (n : Nat)
  | int (i : Int)
  | str (s : String)
  | byt (l : List Nat)

def vlLen : ValueList → Nat
  | .nil => 0
  | .cons _ t => vlLen t + 1

def flLen : FieldList → Nat
  | .nil => 0
  | .cons _ _ t => flLen t + 1

/- Modelled from the spec: the encoder of spec section 4.2 (the encoder
source file is not under src). Every variant is written as a tag token
followed by its payload; arrays and structs are length-prefixed. -/
mutual

def encodeV : Value → List Tok
  | .null => [.nat 0]
  | .int64 n => [.nat 1, .int n]
  | .float64 b => [.nat 2, .nat b]
  | .boolV b => [.nat 3, .nat (cond b 1 0)]
  | .stringV s => [.nat 4, .str s]
  | .bytes l => [.nat 5, .byt l]
  | .numeric i => [.nat 6, .int i]
  | .bignumeric i => [.nat 7, .int i]
  | .date d => [.nat 8, .int d]
  | .time t => [.nat 9, .int t]
  | .datetime m => [.nat 10, .int m]
  | .timestamp m => [.nat 11, .int m]
  | .interval m d ns => [.nat 12, .int m, .int d, .int ns]
  | .json s => [.nat 13, .str s]
  | .array es => .nat 14 :: .nat (vlLen es) :: encodeVL es
  | .structV fl => .nat 15 :: .nat (flLen fl) :: encodeFL fl
  | .safe v => .nat 16 :: encodeV v

def encodeVL : ValueList → List Tok
  | .nil => []
  | .cons v t => encodeV v ++ encodeVL t

def encodeFL : FieldList → List Tok
  | .nil => []
  | .cons none v t => .nat 0 :: (encodeV v ++ encodeFL t)
  | .cons (some s) v t => .nat 1 :: .str s :: (encodeV v ++ encodeFL t)

end

/- Node-count measure used as decoding fuel. -/
mutual

def vsize : Value → Nat
  | .array es => vlSize es + 1
  | .structV fl => flSize fl + 1
  | .safe v => vsize v + 1
  | _ => 1

def vlSize : ValueList → Nat
  | .nil => 0
  | .cons v t => vsize v + vlSize t

def flSize : FieldList → Nat
  | .nil => 0
  | .cons _ v t => vsize v + flSize t

end

/-- Decoding a length-prefixed run of n values with the element decoder
dec; part of the spec-modelled decoder of spec section 4.2. -/
def decodeListWith (dec : List Tok → Option (Value × List Tok)) :
    Nat → List Tok → Option (ValueList × List Tok)
  | 0, r => some (.nil, r)
  | n+1, r =>
    (dec r).bind fun p =>
      (decodeListWith dec n p.2).map fun q => (ValueList.cons p.1 q.1, q.2)

/-- Decoding a length-prefixed run of n struct fields (an optional name tag
followed by the field value) with the element decoder dec. -/
def decodeFieldsWith (dec : List Tok → Option (Value × List Tok)) :
    Nat → List Tok → Option (FieldList × List Tok)
  | 0, r => some (.nil, r)
  | n+1, .nat 0 :: r =>
    (dec r).bind fun p =>
      (decodeFieldsWith dec n p.2).map fun q => (FieldList.cons none p.1 q.1, q.2)
  | n+1, .nat 1 :: .str s :: r =>
    (dec r).bind fun p =>
      (decodeFieldsWith dec n p.2).map fun q => (FieldList.cons (some s) p.1 q.1, q.2)
  | _+1, _ => none

/-- Modelled from the spec: the decoder of spec section 4.2 (the decoder
source file is not under src). The fuel argument bounds the nesting depth
that can be traversed; it decreases when descending into a nested value. -/
def decodeV : Nat → List Tok → Option (Value × List Tok)
  | 0, _ => none
  | fuel+1, toks =>
    match toks with
    | .nat 0 :: r => some (.null, r)
    | .nat 1 :: .int n :: r => some (.int64 n, r)
    | .nat 2 :: .nat b :: r => some (.float64 b, r)
    | .nat 3 :: .nat 0 :: r => some (.boolV false, r)
    | .nat 3 :: .nat 1 :: r => some (.boolV true, r)
    | .nat 4 :: .str s :: r => some (.stringV s, r)
    | .nat 5 :: .byt l :: r => some (.bytes l, r)
    | .nat 6 :: .int i :: r => some (.numeric i, r)
    | .nat 7 :: .int i :: r => some (.bignumeric i, r)
    | .nat 8 :: .int i :: r => some (.date i, r)
    | .nat 9 :: .int i :: r => some (.time i, r)
    | .nat 10 :: .int i :: r => some (.datetime i, r)
    | .nat 11 :: .int i :: r => some (.timestamp i, r)
    | .nat 12 :: .int m :: .int d :: .int ns :: r => some (.interval m d ns, r)
    | .nat 13 :: .str s :: r => some (.json s, r)
    | .nat 14 :: .nat n :: r =>
      (decodeListWith (decodeV fuel) n r).map fun p => (Value.array p.1, p.2)
    | .nat 15 :: .nat n :: r =>
      (decodeFieldsWith (decodeV fuel) n r).map fun p => (Value.structV p.1, p.2)
    | .nat 16 :: r =>
      (decodeV fuel r).map fun p => (Value.safe p.1, p.2)
    | _ => none

/-- Encoding a whole Value into a cell. -/
def encode (v : Value) : List Tok := encodeV v

/-- Decoding a whole cell: the decoder must consume the entire token list. -/
def decode (toks : List Tok) : Option Value :=
  match decodeV toks.length toks with
  | some (v, []) => some v
  | _ => none

theorem vsize_pos : ∀ v : Value, 1 ≤ vsize v := by
  intro v
  cases v <;> simp [vsize]

theorem decodeV_array_eq (fuel n : Nat) (r : List Tok) :
    decodeV (fuel+1) (.nat 14 :: .nat n :: r)
      = (decodeListWith (decodeV fuel) n r).map fun p => (Value.array p.1, p.2) := rfl

theorem decodeV_struct_eq (fuel n : Nat) (r : List Tok) :
    decodeV (fuel+1) (.nat 15 :: .nat n :: r)
      = (decodeFieldsWith (decodeV fuel) n r).map fun p => (Value.structV p.1, p.2) := rfl

theorem decodeV_safe_eq (fuel : Nat) (r : List Tok) :
    decodeV (fuel+1) (.nat 16 :: r)
      = (decodeV fuel r).map fun p => (Value.safe p.1, p.2) := rfl

theorem decodeListWith_succ_eq (dec : List Tok → Option (Value × List Tok))
    (n : Nat) (r : List Tok) :
    decodeListWith dec (n+1) r
      = (dec r).bind fun p =>
          (decodeListWith dec n p.2).map fun q => (ValueList.cons p.1 q.1, q.2) := rfl

theorem decodeFieldsWith_anon_eq (dec : List Tok → Option (Value × List Tok))
    (n : Nat) (r : List Tok) :
    decodeFieldsWith dec (n+1) (.nat 0 :: r)
      = (dec r).bind fun p =>
          (decodeFieldsWith dec n p.2).map fun q => (FieldList.cons none p.1 q.1, q.2) := rfl

theorem decodeFieldsWith_named_eq (dec : List Tok → Option (Value × List Tok))
    (n : Nat) (s : String) (r : List Tok) :
    decodeFieldsWith dec (n+1) (.nat 1 :: .str s :: r)
      = (dec r).bind fun p =>
          (decodeFieldsWith dec n p.2).map fun q => (FieldList.cons (some s) p.1 q.1, q.2) := rfl

mutual

theorem decodeV_encodeV : ∀ (v : Value) (fuel : Nat), vsize v ≤ fuel →
    ∀ rest : List Tok, decodeV fuel (encodeV v ++ rest) = some (v, rest)
  | v, 0, h, _ => absurd (le_trans (vsize_pos v) h) (by omega)
  | .null, fuel+1, _, rest => rfl
  | .int64 n, fuel+1, _, rest => rfl
  | .float64 b, fuel+1, _, rest => rfl
  | .boolV b, fuel+1, _, rest => by cases b <;> rfl
  | .stringV s, fuel+1, _, rest => rfl
  | .bytes l, fuel+1, _, rest => rfl
  | .numeric i, fuel+1, _, rest => rfl
  | .bignumeric i, fuel+1, _, rest => rfl
  | .date i, fuel+1, _, rest => rfl
  | .time i, fuel+1, _, rest => rfl
  | .datetime i, fuel+1, _, rest => rfl
  | .timestamp i, fuel+1, _, rest => rfl
  | .interval m d ns, fuel+1, _, rest => rfl
  | .json s, fuel+1, _, rest => rfl
  | .array es, fuel+1, h, rest => by
    have hle : vlSize es ≤ fuel := by simp [vsize] at h; omega
    have ih := decodeVL_encodeVL es fuel hle rest
    simp only [encodeV, List.cons_append, decodeV_array_eq, ih, Option.map_some']
  | .structV fl, fuel+1, h, rest => by
    have hle : flSize fl ≤ fuel := by simp [vsize] at h; omega
    have ih := decodeFL_encodeFL fl fuel hle rest
    simp only [encodeV, List.cons_append, decodeV_struct_eq, ih, Option.map_some']
  | .safe v, fuel+1, h, rest => by
    have hle : vsize v ≤ fuel := by simp [vsize] at h; omega
    have ih := decodeV_encodeV v fuel hle rest
    simp only [encodeV, List.cons_append, decodeV_safe_eq, ih, Option.map_some']

theorem decodeVL_encodeVL : ∀ (es : ValueList) (fuel : Nat), vlSize es ≤ fuel →
    ∀ rest : List Tok,
      decodeListWith (decodeV fuel) (vlLen es) (encodeVL es ++ rest) = some (es, rest)
  | .nil, fuel, _, rest => rfl
  | .cons v t, fuel, h, rest => by
    have h1 : vsize v ≤ fuel := by simp [vlSize] at h; omega
    have h2 : vlSize t ≤ fuel := by simp [vlSize] at h; omega
    have ih1 := decodeV_encodeV v fuel h1 (encodeVL t ++ rest)
    have ih2 := decodeVL_encodeVL t fuel h2 rest
    simp only [encodeVL, vlLen, List.append_assoc, decodeListWith_succ_eq, ih1,
      Option.some_bind, ih2, Option.map_some']

theorem decodeFL_encodeFL : ∀ (fl : FieldList) (fuel : Nat), flSize fl ≤ fuel →
    ∀ rest : List Tok,
      decodeFieldsWith (decodeV fuel) (flLen fl) (encodeFL fl ++ rest) = some (fl, rest)
  | .nil, fuel, _, rest => rfl
  | .cons none v t, fuel, h, rest => by
    have h1 : vsize v ≤ fuel := by simp [flSize] at h; omega
    have h2 : flSize t ≤ fuel := by simp [flSize] at h; omega
    have ih1 := decodeV_encodeV v fuel h1 (encodeFL t ++ rest)
    have ih2 := decodeFL_encodeFL t fuel h2 rest
    simp only [encodeFL, flLen, List.cons_append, List.append_assoc,
      decodeFieldsWith_anon_eq, ih1, Option.some_bind, ih2, Option.map_some']
  | .cons (some s) v t, fuel, h, rest => by
    have h1 : vsize v ≤ fuel := by simp [flSize] at h; omega
    have h2 : flSize t ≤ fuel := by simp [flSize] at h; omega
    have ih1 := decodeV_encodeV v fuel h1 (encodeFL t ++ rest)
    have ih2 := decodeFL_encodeFL t fuel h2 rest
    simp only [encodeFL, flLen, List.cons_append, List.append_assoc,
      decodeFieldsWith_named_eq, ih1, Option.some_bind, ih2, Option.map_some']

end

mutual

theorem vsize_le_encodeV_len : ∀ v : Value, vsize v ≤ (encodeV v).length
  | .null => by simp [encodeV, vsize]
  | .int64 n => by simp [encodeV, vsize]
  | .float64 b => by simp [encodeV, vsize]
  | .boolV b => by simp [encodeV, vsize]
  | .stringV s => by simp [encodeV, vsize]
  | .bytes l => by simp [encodeV, vsize]
  | .numeric i => by simp [encodeV, vsize]
  | .bignumeric i => by simp [encodeV, vsize]
  | .date i => by simp [encodeV, vsize]
  | .time i => by simp [encodeV, vsize]
  | .datetime i => by simp [encodeV, vsize]
  | .timestamp i => by simp [encodeV, vsize]
  | .interval m d ns => by simp [encodeV, vsize]
  | .json s => by simp [encodeV, vsize]
  | .array es => by
    have ih := vlSize_le_encodeVL_len es
    simp [encodeV, vsize]
    omega
  | .structV fl => by
    have ih := flSize_le_encodeFL_len fl
    simp [encodeV, vsize]
    omega
  | .safe v => by
    have ih := vsize_le_encodeV_len v
    simp [encodeV, vsize]
    omega

theorem vlSize_le_encodeVL_len : ∀ es : ValueList, vlSize es ≤ (encodeVL es).length
  | .nil => by simp [encodeVL, vlSize]
  | .cons v t => by
    have ih1 := vsize_le_encodeV_len v
    have ih2 := vlSize_le_encodeVL_len t
    simp [encodeVL, vlSize]
    omega

theorem flSize_le_encodeFL_len : ∀ fl : FieldList, flSize fl ≤ (encodeFL fl).length
  | .nil => by simp [encodeFL, flSize]
  | .cons none v t => by
    have ih1 := vsize_le_encodeV_len v
    have ih2 := flSize_le_encodeFL_len t
    simp [encodeFL, flSize]
    omega
  | .cons (some s) v t => by
    have ih1 := vsize_le_encodeV_len v
    have ih2 := flSize_le_encodeFL_len t
    simp [encodeFL, flSize]
    omega

end

/-- C1: for every Value v of the value model, across every variant (Null,
Int64, Float64, Bool, String, Bytes, Numeric, BigNumeric, Date, Time,
Datetime, Timestamp, Interval, Json, Array, Struct, Safe), decoding the
encoding of v yields exactly v. -/
theorem value_encode_decode_roundtrip (v : Value) : decode (encode v) = some v := by
  have h := decodeV_encodeV v (encodeV v).length (vsize_le_encodeV_len v) []
  rw [List.append_nil] at h
  simp [decode, encode, h]

/-!
The function runtime. Arguments arrive as a list of Option Value: none is
SQL NULL (a nil Value interface in the Go code). Errors are the Go error
strings. A method call on a nil Value interface is a Go runtime panic,
modelled below as an error carrying the Go panic message.
-/

/-- The Go runtime panic message raised by a method call on a nil
interface value. -/
def goNilPanicMsg : String :=
  "runtime error: invalid memory address or nil pointer dereference"

/- Modelled from the spec: the canonical string form of a value (the
ToString conversion of the value model, whose source file is not under
src). Spec sections 4.1 and 4.4: every value has a canonical textual
form; the DISTINCT option hashes the canonical string form of the first
argument. -/
mutual

def valueToString : Value → String
  | .null => ""
  | .int64 n => toString n
  | .float64 b => "float64:" ++ toString b
  | .boolV b => if b then "true" else "false"
  | .stringV s => s
  | .bytes l => "bytes:" ++ toString l
  | .numeric i => "numeric:" ++ toString i
  | .bignumeric i => "bignumeric:" ++ toString i
  | .date d => "date:" ++ toString d
  | .time t => "time:" ++ toString t
  | .datetime m => "datetime:" ++ toString m
  | .timestamp m => "timestamp:" ++ toString m
  | .interval m d ns => "interval:" ++ toString m ++ " " ++ toString d ++ " " ++ toString ns
  | .json s => s
  | .array es => "(" ++ vlToString es ++ ")"
  | .structV fl => "(" ++ flToString fl ++ ")"
  | .safe v => valueToString v

def vlToString : ValueList → String
  | .nil => ""
  | .cons v .nil => valueToString v
  | .cons v t => valueToString v ++ "," ++ vlToString t

def flToString : FieldList → String
  | .nil => ""
  | .cons _ v .nil => valueToString v
  | .cons _ v t => valueToString v ++ "," ++ flToString t

end

/-- Modelled from the spec: the ToInt64 conversion of the value model
(section 4.1: a to conversion fails with TypeMismatch when the source
variant is incompatible; sections 3 and 7: the Safe wrapper delegates to
its inner value and absorbs a conversion error, resolving to NULL - the
NULL outcome is the none of the Option channel). -/
def valueToInt64 : Value → Except String (Option Int)
  | .int64 n => .ok (some n)
  | .safe v =>
    match valueToInt64 v with
    | .ok r => .ok r
    | .error _ => .ok none
  | _ => .error ("TypeMismatch: failed to convert value to int64")

/-- Modelled from the spec: the ToBool conversion of the value model
(section 4.1: a to conversion fails with TypeMismatch when the source
variant is incompatible; sections 3 and 7: the Safe wrapper delegates to
its inner value and absorbs a conversion error, resolving to NULL). -/
def valueToBool : Value → Except String (Option Bool)
  | .boolV b => .ok (some b)
  | .safe v =>
    match valueToBool v with
    | .ok r => .ok r
    | .error _ => .ok none
  | _ => .error ("TypeMismatch: failed to convert value to bool")

/-- Modelled from the spec: the ToBytes conversion of the value model.
STRING values convert to their code points (spec section 4.3 treats
STRING as a sequence of UTF-8 code points and BYTES as octets); the Safe
wrapper delegates and absorbs a conversion error to NULL (spec sections
3 and 7). -/
def valueToBytes : Value → Except String (Option (List Nat))
  | .bytes l => .ok (some l)
  | .stringV s => .ok (some (s.data.map Char.toNat))
  | .safe v =>
    match valueToBytes v with
    | .ok r => .ok r
    | .error _ => .ok none
  | _ => .error ("TypeMismatch: failed to convert value to bytes")

/-- A ToString call on a possibly-nil argument, as written in Go: a nil
receiver panics. -/
def optToString : Option Value → Except String String
  | none => .error goNilPanicMsg
  | some v => .ok (valueToString v)

/-- A ToInt64 call on a possibly-nil argument: a nil receiver panics. -/
def optToInt64 : Option Value → Except String (Option Int)
  | none => .error goNilPanicMsg
  | some v => valueToInt64 v

/-- A ToBool call on a possibly-nil argument: a nil receiver panics. -/
def optToBool : Option Value → Except String (Option Bool)
  | none => .error goNilPanicMsg
  | some v => valueToBool v

/-- Modelled from the spec: the LENGTH implementation (spec section 4.3:
LENGTH on BYTES returns octets, on STRING returns code points). The
implementation source file is not under src. -/
def lengthFn : Value → Except String (Option Value)
  | .stringV s => .ok (some (.int64 s.length))
  | .bytes l => .ok (some (.int64 l.length))
  | _ => .error ("TypeMismatch: LENGTH requires string or bytes")

/-- bindLength from internal/function_bind.go: exactly one argument; a
NULL argument returns INT64 0 (not NULL); otherwise dispatch to LENGTH. -/
def bindLength (args : List (Option Value)) : Except String (Option Value) :=
  match args with
  | [a] =>
    match a with
    | none => .ok (some (.int64 0))
    | some v => lengthFn v
  | _ => .error ("LENGTH: invalid argument num " ++ toString args.length)

/-- Modelled from the spec: the ASCII implementation (code of the first
character). -/
def asciiFn (s : String) : Except String (Option Value) :=
  match s.data with
  | [] => .ok (some (.int64 0))
  | c :: _ => .ok (some (.int64 c.toNat))

/-- bindAscii from internal/function_bind.go: one argument; NULL returns
NULL; the empty string returns 0; otherwise dispatch to ASCII. -/
def bindAscii (args : List (Option Value)) : Except String (Option Value) :=
  match args with
  | [a] =>
    match a with
    | none => .ok none
    | some v =>
      let s := valueToString v
      if s = "" then .ok (some (.int64 0)) else asciiFn s
  | _ => .error ("ASCII: invalid argument num " ++ toString args.length)

/-- bindByteLength from internal/function_bind.go: one argument; NULL
returns NULL; otherwise the octet count of the ToBytes conversion. -/
def bindByteLength (args : List (Option Value)) : Except String (Option Value) :=
  match args with
  | [a] =>
    match a with
    | none => .ok none
    | some v =>
      match valueToBytes v with
      | .ok (some l) => .ok (some (.int64 l.length))
      | .ok none => .ok none
      | .error e => .error e
  | _ => .error ("BYTE_LENGTH: invalid argument num " ++ toString args.length)

/-- bindCharLength from internal/function_bind.go: one argument; NULL
returns NULL; otherwise the ToBytes conversion is taken and its
character count returned (the modelled byte form of a string is its code
point list, so the count is the code point count). -/
def bindCharLength (args : List (Option Value)) : Except String (Option Value) :=
  match args with
  | [a] =>
    match a with
    | none => .ok none
    | some v =>
      match valueToBytes v with
      | .ok (some l) => .ok (some (.int64 l.length))
      | .ok none => .ok none
      | .error e => .error e
  | _ => .error ("CHAR_LENGTH: invalid argument num " ++ toString args.length)

/-- Modelled from the spec: the CHR implementation (the character with
the given code point). -/
def chrFn (n : Int) : String := String.mk [Char.ofNat n.toNat]

/-- bindChr from internal/function_bind.go: one argument; NULL returns
NULL; otherwise the ToInt64 conversion is taken and CHR applied. -/
def bindChr (args : List (Option Value)) : Except String (Option Value) :=
  match args with
  | [a] =>
    match a with
    | none => .ok none
    | some v =>
      match valueToInt64 v with
      | .ok (some n) => .ok (some (.stringV (chrFn n)))
      | .ok none => .ok none
      | .error e => .error e
  | _ => .error ("CHR: invalid argument num " ++ toString args.length)

/-- Modelled from the spec: the UNICODE implementation (code point of the
first character, 0 for the empty string). -/
def unicodeFn (s : String) : Int :=
  match s.data with
  | [] => 0
  | c :: _ => c.toNat

/-- bindUnicode from internal/function_bind.go: one argument; NULL
returns NULL; otherwise ToString then UNICODE. -/
def bindUnicode (args : List (Option Value)) : Except String (Option Value) :=
  match args with
  | [a] =>
    match a with
    | none => .ok none
    | some v => .ok (some (.int64 (unicodeFn (valueToString v))))
  | _ => .error ("UNICODE: invalid argument num " ++ toString args.length)

/-- Modelled from the spec: the UPPER implementation (a string function;
spec section 4.3 treats STRING inputs as code points). -/
def upperFn : Value → Except String (Option Value)
  | .stringV s => .ok (some (.stringV s.toUpper))
  | _ => .error ("TypeMismatch: UPPER requires string")

/-- bindUpper from internal/function_bind.go: one argument; NULL returns
NULL; otherwise dispatch to UPPER. -/
def bindUpper (args : List (Option Value)) : Except String (Option Value) :=
  match args with
  | [a] =>
    match a with
    | none => .ok none
    | some v => upperFn v
  | _ => .error ("UPPER: invalid argument num " ++ toString args.length)

/-- Lookup of a struct field by 0-based position. -/
def flGetField (fl : FieldList) (i : Int) : Except String (Option Value) :=
  match fl with
  | .nil => .error ("InvalidArgument: struct field index out of range")
  | .cons _ v t => if i = 0 then .ok (some v) else flGetField t (i - 1)

/-- Modelled from the spec: the STRUCT_FIELD implementation (spec section
4.3: selects by 0-based position, mirroring analyzer output). -/
def structFieldFn : Value → Int → Except String (Option Value)
  | .structV fl, i => flGetField fl i
  | _, _ => .error ("TypeMismatch: field reference on non-struct value")

/-- bindStructField from internal/function_bind.go: exactly two
arguments; the second is converted with ToInt64 and a conversion failure
is returned verbatim (no function-name prefix); then STRUCT_FIELD is
applied. A nil first argument is dereferenced by the implementation; a
NULL index (a Safe-absorbed conversion) propagates NULL per spec
section 3. -/
def bindStructField (args : List (Option Value)) : Except String (Option Value) :=
  match args with
  | [a, b] =>
    match optToInt64 b with
    | .error e => .error e
    | .ok none => .ok none
    | .ok (some i) =>
      match a with
      | none => .error goNilPanicMsg
      | some v => structFieldFn v i
  | _ => .error ("STRUCT_FIELD: invalid argument num " ++ toString args.length)

/-- bindCastBoolString from internal/function_bind.go: exactly one
argument; ToBool then the Go format of the boolean, which is the word
true or false (never 1 or 0). A NULL conversion outcome (a Safe-absorbed
type error) yields a NULL result per spec sections 3 and 7. -/
def bindCastBoolString (args : List (Option Value)) : Except String (Option Value) :=
  match args with
  | [a] =>
    match optToBool a with
    | .error e => .error e
    | .ok none => .ok none
    | .ok (some b) => .ok (some (.stringV (if b then "true" else "false")))
  | _ => .error ("CAST: invalid argument num " ++ toString args.length)

/-- bindDouble from internal/function_bind.go (registered for the FLOAT64
conversion function): exactly two arguments; the second is the
wide_number_mode string; both the exact and the round modes return the
first argument unchanged; any other mode is an error naming the mode. -/
def bindDouble (args : List (Option Value)) : Except String (Option Value) :=
  match args with
  | [a, b] =>
    match optToString b with
    | .error e => .error e
    | .ok mode =>
      if mode = "exact" then .ok a
      else if mode = "round" then .ok a
      else .error ("unexpected wide_number_mode: " ++ mode)
  | _ => .error ("FLOAT64: invalid argument num " ++ toString args.length)

/-- A registered scalar function: reserved name, expected argument count,
and the bound function. -/
structure ScalarFn where
  name : String
  arity : Nat
  fn : List (Option Value) → Except String (Option Value)

/-- The functions the spec declares explicitly NULL-safe. -/
def nullSafeNames : List String :=
  ["IFNULL", "COALESCE", "IS_NULL", "IS_DISTINCT_FROM", "AND", "OR"]

/-- The modelled registry of unary scalar functions whose NULL behaviour
is decided in the bind layer of internal/function_bind.go. -/
def nullPropRegistry : List ScalarFn :=
  [⟨"LENGTH", 1, bindLength⟩,
   ⟨"ASCII", 1, bindAscii⟩,
   ⟨"BYTE_LENGTH", 1, bindByteLength⟩,
   ⟨"CHAR_LENGTH", 1, bindCharLength⟩,
   ⟨"CHR", 1, bindChr⟩,
   ⟨"UNICODE", 1, bindUnicode⟩,
   ⟨"UPPER", 1, bindUpper⟩]

/-- The modelled registry used for the arity-error-message property,
extending the unary registry with the modelled binary functions. -/
def scalarArityRegistry : List ScalarFn :=
  nullPropRegistry ++
  [⟨"STRUCT_FIELD", 2, bindStructField⟩,
   ⟨"CAST", 1, bindCastBoolString⟩,
   ⟨"FLOAT64", 2, bindDouble⟩]

/-- C2 counterexample: LENGTH is a registered scalar function that is not
NULL-safe, yet with a NULL argument it returns INT64 0, not NULL
(internal/function_bind.go, bindLength). -/
theorem length_of_null_is_zero_not_null :
    bindLength [none] = .ok (some (.int64 0))
    ∧ (Except.ok (some (Value.int64 0)) : Except String (Option Value)) ≠ .ok none :=
  ⟨rfl, by simp⟩

/-- C2 (amended): every modeled registered non-NULL-safe unary scalar
function other than LENGTH returns NULL when its argument is NULL;
LENGTH instead returns INT64 0 on a NULL argument. -/
theorem scalar_null_propagation :
    ∀ e ∈ nullPropRegistry, e.name ∉ nullSafeNames → e.name ≠ "LENGTH" →
      e.fn [none] = .ok none := by
  intro e he h1 h2
  simp only [nullPropRegistry, List.mem_cons, List.not_mem_nil, or_false] at he
  rcases he with rfl | rfl | rfl | rfl | rfl | rfl | rfl
  · exact absurd rfl h2
  · rfl
  · rfl
  · rfl
  · rfl
  · rfl
  · rfl

/-- Witness for the amended C2 statement at the ASCII entry. -/
theorem scalar_null_propagation_witness :
    ((⟨"ASCII", 1, bindAscii⟩ : ScalarFn) ∈ nullPropRegistry)
    ∧ ("ASCII" ∉ nullSafeNames)
    ∧ ("ASCII" ≠ "LENGTH")
    ∧ bindAscii [none] = Except.ok none :=
  ⟨List.Mem.tail _ (List.Mem.head _), by decide, by decide,
   scalar_null_propagation ⟨"ASCII", 1, bindAscii⟩ (List.Mem.tail _ (List.Mem.head _))
     (by decide) (by decide)⟩

/-- C8 counterexample: not every non-boolean input to the bool-to-string
cast fails with a type error. A SAFE-wrapped boolean is not a boolean
variant, yet the cast succeeds on it (the Safe wrapper delegates the
ToBool conversion to its inner value, spec section 3); and a
SAFE-wrapped non-boolean yields NULL, the wrapper absorbing the type
error (spec section 7), rather than failing. -/
theorem safe_wrapped_cast_does_not_error :
    bindCastBoolString [some (.safe (.boolV true))] = .ok (some (.stringV "true"))
    ∧ Value.safe (Value.boolV true) ≠ Value.boolV true
    ∧ Value.safe (Value.boolV true) ≠ Value.boolV false
    ∧ bindCastBoolString [some (.safe (.int64 3))] = .ok none
    ∧ (Except.ok (none : Option Value) : Except String (Option Value))
        ≠ .error ("TypeMismatch: failed to convert value to bool") :=
  ⟨rfl, fun h => Value.noConfusion h, fun h => Value.noConfusion h, rfl,
   fun h => Except.noConfusion h⟩

/-- C8 (amended): casting a boolean to STRING yields the word true for
true and the word false for false (never 1 or 0), also under the SAFE
wrapper, which delegates to its inner value; a non-boolean input that is
not SAFE-wrapped fails with a TypeMismatch error; a SAFE-wrapped
non-boolean does not fail: the wrapper absorbs the type error and the
cast yields NULL. -/
theorem cast_bool_to_string :
    bindCastBoolString [some (.boolV true)] = .ok (some (.stringV "true"))
    ∧ bindCastBoolString [some (.boolV false)] = .ok (some (.stringV "false"))
    ∧ bindCastBoolString [some (.safe (.boolV true))] = .ok (some (.stringV "true"))
    ∧ bindCastBoolString [some (.safe (.boolV false))] = .ok (some (.stringV "false"))
    ∧ (∀ v : Value, (∀ b : Bool, v ≠ .boolV b) → (∀ w : Value, v ≠ .safe w) →
        bindCastBoolString [some v]
          = .error ("TypeMismatch: failed to convert value to bool"))
    ∧ (∀ v : Value, (∀ b : Bool, v ≠ .boolV b) → (∀ w : Value, v ≠ .safe w) →
        bindCastBoolString [some (.safe v)] = .ok none) := by
  refine ⟨rfl, rfl, rfl, rfl, ?_, ?_⟩
  · intro v h1 h2
    cases v <;> first | rfl | (exact absurd rfl (h1 _)) | (exact absurd rfl (h2 _))
  · intro v h1 h2
    cases v <;> first | rfl | (exact absurd rfl (h1 _)) | (exact absurd rfl (h2 _))

/-- Witness for the amended C8 statement at a plain non-boolean input and
at a SAFE-wrapped non-boolean input. -/
theorem cast_bool_to_string_witness :
    bindCastBoolString [some (Value.int64 3)]
      = .error ("TypeMismatch: failed to convert value to bool")
    ∧ bindCastBoolString [some (Value.safe (Value.int64 3))] = .ok none :=
  ⟨cast_bool_to_string.2.2.2.2.1 (Value.int64 3)
     (fun _ h => Value.noConfusion h) (fun _ h => Value.noConfusion h),
   cast_bool_to_string.2.2.2.2.2 (Value.int64 3)
     (fun _ h => Value.noConfusion h) (fun _ h => Value.noConfusion h)⟩

/-- C9 counterexample: a failing STRUCT_FIELD invocation whose second
argument cannot be converted to an integer surfaces the conversion error
verbatim: the user-visible message does not begin with the function name
and carries no argument position. -/
theorem struct_field_error_lacks_function_name :
    bindStructField [some (.structV (.cons (some "a") (.int64 1) .nil)), some (.stringV "x")]
      = .error ("TypeMismatch: failed to convert value to int64")
    ∧ ("STRUCT_FIELD".toList.isPrefixOf
        ("TypeMismatch: failed to convert value to int64").toList) = false :=
  ⟨rfl, by decide⟩

/-- C9 (amended): a modeled registered function invoked with the wrong
number of arguments fails with the message <name>: invalid argument num
<count>, beginning with the function name but reporting the supplied
argument count rather than an argument position; errors propagated from
argument conversion (as in STRUCT_FIELD) carry no function-name prefix. -/
theorem arity_error_message_names_function :
    ∀ e ∈ scalarArityRegistry, ∀ args : List (Option Value), args.length ≠ e.arity →
      e.fn args = .error (e.name ++ ": invalid argument num " ++ toString args.length) := by
  intro e he args hlen
  simp only [scalarArityRegistry, nullPropRegistry, List.mem_append, List.mem_cons,
    List.not_mem_nil, or_false] at he
  rcases he with (rfl | rfl | rfl | rfl | rfl | rfl | rfl) | (rfl | rfl | rfl) <;>
    (rcases args with _ | ⟨a, _ | ⟨b, _ | ⟨c, t⟩⟩⟩ <;> first | rfl | (exact absurd rfl hlen))

/-- Witness for the amended C9 statement: LENGTH with zero arguments. -/
theorem arity_error_message_witness :
    ((⟨"LENGTH", 1, bindLength⟩ : ScalarFn) ∈ scalarArityRegistry)
    ∧ bindLength [] = .error ("LENGTH: invalid argument num 0") :=
  ⟨List.Mem.head _,
   arity_error_message_names_function ⟨"LENGTH", 1, bindLength⟩ (List.Mem.head _) [] (by decide)⟩

/-- C10: the FLOAT64 conversion function takes exactly two arguments;
with wide_number_mode exact or round it returns its first argument
completely unchanged (the two modes are extensionally equal); any other
mode string fails with an error naming the unexpected mode. -/
theorem float64_wide_number_mode :
    (∀ a : Option Value, bindDouble [a, some (.stringV "exact")] = .ok a)
    ∧ (∀ a : Option Value, bindDouble [a, some (.stringV "round")] = .ok a)
    ∧ (∀ a : Option Value,
        bindDouble [a, some (.stringV "exact")] = bindDouble [a, some (.stringV "round")])
    ∧ (∀ (a : Option Value) (m : String), m ≠ "exact" → m ≠ "round" →
        bindDouble [a, some (.stringV m)] = .error ("unexpected wide_number_mode: " ++ m))
    ∧ (∀ args : List (Option Value), args.length ≠ 2 →
        bindDouble args = .error ("FLOAT64: invalid argument num " ++ toString args.length)) := by
  refine ⟨fun a => rfl, fun a => rfl, fun a => rfl, ?_, ?_⟩
  · intro a m h1 h2
    show (if m = "exact" then Except.ok a
          else if m = "round" then Except.ok a
          else .error ("unexpected wide_number_mode: " ++ m))
        = .error ("unexpected wide_number_mode: " ++ m)
    rw [if_neg h1, if_neg h2]
  · intro args hlen
    rcases args with _ | ⟨a, _ | ⟨b, _ | ⟨c, t⟩⟩⟩ <;> first | rfl | (exact absurd rfl hlen)

/-- Witness for C10: a value passes through unchanged under mode exact, an
unknown mode is rejected naming the mode, and a wrong argument count is
rejected. -/
theorem float64_wide_number_mode_witness :
    bindDouble [some (Value.float64 5), some (Value.stringV "exact")]
      = .ok (some (Value.float64 5))
    ∧ bindDouble [some (Value.float64 5), some (Value.stringV "banana")]
        = .error ("unexpected wide_number_mode: banana")
    ∧ bindDouble [] = .error ("FLOAT64: invalid argument num 0") :=
  ⟨float64_wide_number_mode.1 _,
   float64_wide_number_mode.2.2.2.1 _ "banana" (by decide) (by decide),
   float64_wide_number_mode.2.2.2.2 [] (by decide)⟩

/-!
The Aggregator and WindowAggregator step machines of
internal/function_bind.go. The per-call options DISTINCT and IGNORE NULLS
are modelled as an explicit option record (the sentinel-argument parsing
lives in a source file that is not provided; spec section 4.4 describes
the options as out-of-band arguments). The inner aggregate is abstracted
as a state-transforming step function on the converted argument list, as
registered by the aggregate bind functions. -/

/-- The per-call aggregate options (AggregatorOption in the source). -/
structure AggOpt where
  distinct : Bool
  ignoreNulls : Bool

/-- Aggregator state: the set of seen DISTINCT keys (insertion ordered)
and the inner aggregate state. -/
structure AggState (σ : Type) where
  distinctKeys : List String
  inner : σ

/-- The error returned by Step when DISTINCT is set and no argument is
supplied. -/
def distinctNoArgMsg : String := "DISTINCT option required at least one argument"

/-- The DISTINCT gate and inner dispatch shared by the tail of
Aggregator.Step (internal/function_bind.go): with DISTINCT, no argument
is an error; a nil first argument is ignored; the canonical string form
of the first argument is the dedup key; a seen key skips the row;
otherwise the key is recorded and the inner step runs on the full
argument list. -/
def aggregatorDistinctPhase {σ : Type}
    (innerStep : σ → List (Option Value) → Except String σ)
    (opt : AggOpt) (st : AggState σ) (values : List (Option Value)) :
    Except String (AggState σ) :=
  if opt.distinct then
    match values with
    | [] => .error distinctNoArgMsg
    | v0 :: _ =>
      match v0 with
      | none => .ok st
      | some v =>
        let key := valueToString v
        if key ∈ st.distinctKeys then .ok st
        else
          match innerStep st.inner values with
          | .ok s2 => .ok ⟨key :: st.distinctKeys, s2⟩
          | .error e => .error e
  else
    match innerStep st.inner values with
    | .ok s2 => .ok ⟨st.distinctKeys, s2⟩
    | .error e => .error e

/-- Aggregator.Step from internal/function_bind.go: with IGNORE NULLS all
nil values are filtered out of the argument list and a row left empty is
skipped; then the DISTINCT gate runs and the inner step is called. -/
def aggregatorStep {σ : Type}
    (innerStep : σ → List (Option Value) → Except String σ)
    (opt : AggOpt) (st : AggState σ) (row : List (Option Value)) :
    Except String (AggState σ) :=
  if opt.ignoreNulls then
    let filtered := row.filter Option.isSome
    if filtered.isEmpty then .ok st
    else aggregatorDistinctPhase innerStep opt st filtered
  else aggregatorDistinctPhase innerStep opt st row

/-- WindowAggregator.Step from internal/function_bind.go: with IGNORE
NULLS all nil values are filtered out (with no empty-row skip); with
DISTINCT, no argument is an error, and the dedup key is computed by
calling ToString on the first value WITHOUT a nil check - on a nil first
value the Go code performs a nil-interface method call, which panics. -/
def windowAggregatorStep {σ : Type}
    (innerStep : σ → List (Option Value) → Except String σ)
    (opt : AggOpt) (st : AggState σ) (row : List (Option Value)) :
    Except String (AggState σ) :=
  let values := if opt.ignoreNulls then row.filter Option.isSome else row
  if opt.distinct then
    match values with
    | [] => .error distinctNoArgMsg
    | v0 :: _ =>
      match optToString v0 with
      | .error e => .error e
      | .ok key =>
        if key ∈ st.distinctKeys then .ok st
        else
          match innerStep st.inner values with
          | .ok s2 => .ok ⟨key :: st.distinctKeys, s2⟩
          | .error e => .error e
  else
    match innerStep st.inner values with
    | .ok s2 => .ok ⟨st.distinctKeys, s2⟩
    | .error e => .error e

/-- Running Aggregator.Step over the rows of a group in arrival order. -/
def aggregatorRun {σ : Type}
    (innerStep : σ → List (Option Value) → Except String σ)
    (opt : AggOpt) : AggState σ → List (List (Option Value)) →
    Except String (AggState σ)
  | st, [] => .ok st
  | st, r :: rs =>
    match aggregatorStep innerStep opt st r with
    | .ok st2 => aggregatorRun innerStep opt st2 rs
    | .error e => .error e

/-- The dedup transformation described by the claim: two rows are
duplicates exactly when the canonical string forms of their first
arguments are equal; the first occurrence of each key is kept in arrival
order; rows whose first argument is NULL are skipped (spec section 4.4:
NULL values are skipped). -/
def dedupByCanonicalKey (seen : List String) :
    List (List (Option Value)) → List (List (Option Value))
  | [] => []
  | r :: rs =>
    match r with
    | [] => r :: dedupByCanonicalKey seen rs
    | none :: _ => dedupByCanonicalKey seen rs
    | some v :: _ =>
      if valueToString v ∈ seen then dedupByCanonicalKey seen rs
      else r :: dedupByCanonicalKey (valueToString v :: seen) rs

/-- An inner aggregate step that records every argument list it is given;
used to observe which rows reach the aggregate. -/
def recInner (s : List (List (Option Value))) (row : List (Option Value)) :
    Except String (List (List (Option Value))) :=
  .ok (s ++ [row])

theorem aggregatorRun_distinct_eq_dedup {σ : Type}
    (f : σ → List (Option Value) → Except String σ) :
    ∀ (rows : List (List (Option Value))) (seen : List String) (s : σ),
      (∀ r ∈ rows, r ≠ []) →
      (aggregatorRun f ⟨true, false⟩ ⟨seen, s⟩ rows).map AggState.inner
        = (aggregatorRun f ⟨false, false⟩ ⟨[], s⟩ (dedupByCanonicalKey seen rows)).map
            AggState.inner := by
  intro rows
  induction rows with
  | nil => intro seen s _; rfl
  | cons r rs ih =>
    intro seen s h
    have hr : r ≠ [] := h r (List.Mem.head _)
    have hrs : ∀ x ∈ rs, x ≠ [] := fun x hx => h x (List.Mem.tail _ hx)
    cases r with
    | nil => exact absurd rfl hr
    | cons v0 rt =>
      cases v0 with
      | none =>
        simp only [aggregatorRun, aggregatorStep, aggregatorDistinctPhase,
          dedupByCanonicalKey, if_false, if_true]
        exact ih seen s hrs
      | some v =>
        by_cases hk : valueToString v ∈ seen
        · simp only [aggregatorRun, aggregatorStep, aggregatorDistinctPhase,
            dedupByCanonicalKey, hk, if_true, if_false, ite_true, ite_false]
          exact ih seen s hrs
        · cases hstep : f s (some v :: rt) with
          | error e =>
            simp only [aggregatorRun, aggregatorStep, aggregatorDistinctPhase,
              dedupByCanonicalKey, hk, hstep, if_true, if_false, ite_true, ite_false]
            simp [Except.map]
          | ok s2 =>
            simp only [aggregatorRun, aggregatorStep, aggregatorDistinctPhase,
              dedupByCanonicalKey, hk, hstep, if_true, if_false, ite_true, ite_false]
            exact ih (valueToString v :: seen) s2 hrs

/-- C3: running an aggregate with the DISTINCT option over a group equals
running the plain aggregate over the group with duplicates removed, where
two rows are duplicates exactly when the canonical string forms of their
first arguments are equal and the first occurrence of each key is kept in
arrival order (rows whose first argument is NULL are skipped, as the spec
prescribes for DISTINCT); the comparison is on the inner aggregate
result. Every row must carry at least one argument. -/
theorem aggregate_distinct_dedup {σ : Type}
    (innerStep : σ → List (Option Value) → Except String σ) (init : σ)
    (rows : List (List (Option Value))) (hne : ∀ r ∈ rows, r ≠ []) :
    (aggregatorRun innerStep ⟨true, false⟩ ⟨[], init⟩ rows).map AggState.inner
      = (aggregatorRun innerStep ⟨false, false⟩ ⟨[], init⟩
          (dedupByCanonicalKey [] rows)).map AggState.inner :=
  aggregatorRun_distinct_eq_dedup innerStep rows [] init hne

/-- A concrete group with a duplicated first key. -/
def demoRows : List (List (Option Value)) :=
  [[some (.int64 1)], [some (.int64 1)], [some (.stringV "a")]]

theorem demoRows_nonempty : ∀ r ∈ demoRows, r ≠ [] := by
  intro r hr
  simp only [demoRows, List.mem_cons, List.not_mem_nil, or_false] at hr
  rcases hr with rfl | rfl | rfl <;> exact List.cons_ne_nil _ _

/-- Witness for C3 on a concrete recording aggregate. -/
theorem aggregate_distinct_dedup_witness :
    (∀ r ∈ demoRows, r ≠ [])
    ∧ (aggregatorRun recInner ⟨true, false⟩ ⟨[], []⟩ demoRows).map AggState.inner
        = (aggregatorRun recInner ⟨false, false⟩ ⟨[], []⟩
            (dedupByCanonicalKey [] demoRows)).map AggState.inner :=
  ⟨demoRows_nonempty, aggregate_distinct_dedup recInner [] demoRows demoRows_nonempty⟩

/-- C4: under DISTINCT, a step with no argument fails with the required
error in both machines, and the plain Aggregator skips a NULL first
argument without error; but the WindowAggregator, lacking the nil check,
dereferences the NULL first argument (a Go nil-interface method call,
i.e. a runtime panic) instead of skipping the row. -/
theorem window_distinct_null_first_argument :
    aggregatorStep recInner ⟨true, false⟩ ⟨[], []⟩ [none] = .ok ⟨[], []⟩
    ∧ aggregatorStep recInner ⟨true, false⟩ ⟨[], []⟩ [] = .error distinctNoArgMsg
    ∧ windowAggregatorStep recInner ⟨true, false⟩ ⟨[], []⟩ [] = .error distinctNoArgMsg
    ∧ windowAggregatorStep recInner ⟨true, false⟩ ⟨[], []⟩ [none] = .error goNilPanicMsg :=
  ⟨rfl, rfl, rfl, rfl⟩

/-- C5 counterexample: with IGNORE NULLS, a row whose FIRST argument is
NULL but that carries another non-NULL argument is NOT skipped: the inner
aggregate is invoked, and with the NULL argument removed, so the
remaining argument has shifted position. -/
theorem ignore_nulls_does_not_skip_null_first_row :
    aggregatorStep recInner ⟨false, true⟩ ⟨[], []⟩ [none, some (.int64 2)]
      = .ok ⟨[], [[some (.int64 2)]]⟩
    ∧ ([[some (Value.int64 2)]] : List (List (Option Value))) ≠ []
    ∧ ([some (Value.int64 2)] : List (Option Value)) ≠ [none, some (Value.int64 2)] :=
  ⟨rfl, by simp, by simp⟩

/-- C5 (amended): running an aggregate with IGNORE NULLS over a group
equals running the plain aggregate over the group with every NULL
argument removed from each row and rows left empty dropped; a row whose
first argument is NULL but that has other non-NULL arguments is passed
through with its NULL arguments removed, not skipped. -/
theorem aggregate_ignore_nulls_filter {σ : Type}
    (innerStep : σ → List (Option Value) → Except String σ) :
    ∀ (rows : List (List (Option Value))) (s : σ),
    (aggregatorRun innerStep ⟨false, true⟩ ⟨[], s⟩ rows).map AggState.inner
      = (aggregatorRun innerStep ⟨false, false⟩ ⟨[], s⟩
          ((rows.map fun r => r.filter Option.isSome).filter
            fun r => !r.isEmpty)).map AggState.inner := by
  intro rows
  induction rows with
  | nil => intro s; rfl
  | cons r rs ih =>
    intro s
    by_cases h : (r.filter Option.isSome).isEmpty
    · simp only [aggregatorRun, aggregatorStep, aggregatorDistinctPhase, List.map_cons,
        List.filter_cons, h, if_true, if_false, ite_true, ite_false, Bool.not_true,
        Bool.false_eq_true]
      exact ih s
    · cases hstep : innerStep s (r.filter Option.isSome) with
      | error e =>
        simp only [aggregatorRun, aggregatorStep, aggregatorDistinctPhase, List.map_cons,
          List.filter_cons, h, hstep, if_true, if_false, ite_true, ite_false,
          Bool.not_false, Bool.not_true, Bool.false_eq_true]
      | ok s2 =>
        simp only [aggregatorRun, aggregatorStep, aggregatorDistinctPhase, List.map_cons,
          List.filter_cons, h, hstep, if_true, if_false, ite_true, ite_false,
          Bool.not_false, Bool.not_true, Bool.false_eq_true]
        exact ih s2

/-!
The statement rewriter pieces needed by the remaining claims. The
rewriter source file is not provided, so both the catalog DDL state
machine and the wildcard-table expansion are modelled from spec section
4.7.
-/

/-- Catalog error kinds from the error taxonomy of spec section 7. -/
inductive CatalogErr where
  | catalogConflict
  | catalogMissing

/-- The session view of the catalog: TEMP tables live in a session-scoped
namespace separate from the persistent tables. -/
structure SessionCatalog where
  temp : List String
  persistent : List String

def emptyCatalog : SessionCatalog := ⟨[], []⟩

/-- Modelled from the spec: CREATE TEMP TABLE (spec section 4.7, DDL):
creates in the private session schema; re-creation is idempotent and
never an error. -/
def createTempTable (c : SessionCatalog) (n : String) :
    Except CatalogErr SessionCatalog :=
  .ok ⟨if n ∈ c.temp then c.temp else n :: c.temp, c.persistent⟩

/-- Modelled from the spec: non-TEMP CREATE TABLE (spec section 4.7, DDL;
spec section 7): a second non-TEMP CREATE of the same name fails with
CatalogConflict unless OR REPLACE; the TEMP namespace does not block a
non-TEMP CREATE. -/
def createTable (c : SessionCatalog) (n : String) (orReplace : Bool) :
    Except CatalogErr SessionCatalog :=
  if n ∈ c.persistent then
    if orReplace then .ok c else .error .catalogConflict
  else .ok ⟨c.temp, n :: c.persistent⟩

/-- C7: for any table name, two consecutive CREATE TEMP TABLE statements
both succeed, a subsequent non-TEMP CREATE TABLE of the same name
succeeds, and a second non-TEMP CREATE TABLE (without OR REPLACE) fails
with CatalogConflict. -/
theorem create_temp_table_sequence (n : String) :
    createTempTable emptyCatalog n = .ok ⟨[n], []⟩
    ∧ createTempTable ⟨[n], []⟩ n = .ok ⟨[n], []⟩
    ∧ createTable ⟨[n], []⟩ n false = .ok ⟨[n], [n]⟩
    ∧ createTable ⟨[n], [n]⟩ n false = .error .catalogConflict := by
  refine ⟨?_, ?_, ?_, ?_⟩
  · simp [createTempTable, emptyCatalog]
  · simp [createTempTable]
  · simp [createTable]
  · simp [createTable]

/-- A catalog table as seen by the wildcard expansion: its unqualified
name within the dataset, its column names, and its rows. -/
structure WTable where
  name : String
  cols : List String
  rows : List (List (Option String))

/-- Whether a table name begins with the wildcard portion before the
star. -/
def tableMatches (pre : String) (t : WTable) : Bool :=
  pre.toList.isPrefixOf t.name.toList

/-- The trailing portion of the table name: the value of the synthesized
_TABLE_SUFFIX column. -/
def tableSuffixAfter (pre : String) (t : WTable) : String :=
  String.mk (t.name.toList.drop pre.toList.length)

/-- Reading one column of a table: a table missing the selected column
contributes NULL for every row (spec section 4.7). -/
def selectColumn (col : String) (t : WTable) : List (Option String) :=
  match t.cols.indexOf? col with
  | some i => t.rows.map fun r => (r.get? i).join
  | none => t.rows.map fun _ => none

/-- Modelled from the spec: wildcard-table expansion (spec section 4.7):
a UNION ALL over every catalog entry of the dataset whose unqualified
name begins with the portion before the star, selecting the named column
and synthesizing _TABLE_SUFFIX with the trailing portion. -/
def wildcardSelect (catalog : List WTable) (pre col : String) :
    List (Option String × String) :=
  (catalog.filter (tableMatches pre)).flatMap fun t =>
    (selectColumn col t).map fun c => (c, tableSuffixAfter pre t)

/-- The WHERE predicate of the claim: name LIKE alice percent OR name IS
NULL. -/
def likeAliceOrNull (row : Option String × String) : Bool :=
  match row.1 with
  | none => true
  | some s => "alice".toList.isPrefixOf s.toList

/-- The claim query: SELECT name, _TABLE_SUFFIX over the wildcard
reference with the WHERE filter applied. -/
def wildcardQueryC6 (catalog : List WTable) : List (Option String × String) :=
  (wildcardSelect catalog "table_" "name").filter likeAliceOrNull

/-- The dataset of the claim: table_a has column specialName, the others
have column name. -/
def testCatalog : List WTable :=
  [⟨"table_a", ["specialName"], [[some "alice_a"], [some "bob_a"]]⟩,
   ⟨"table_b", ["name"], [[some "alice_b"], [some "bob_b"]]⟩,
   ⟨"table_c", ["name"], [[some "alice_c"], [some "bob_c"]]⟩,
   ⟨"other_d", ["name"], [[some "alice_d"], [some "bob_d"]]⟩]

/-- C6: the wildcard query returns exactly the four rows (alice_c, c),
(alice_b, b), (NULL, a), (NULL, a) - as a multiset, the spec fixing no
inter-table row order - the NULL pair coming from table_a, which lacks
the name column; removing the non-matching table other_d from the
catalog leaves the result unchanged, so tables whose names do not begin
with the portion before the star contribute no rows. -/
theorem wildcard_table_query :
    (wildcardQueryC6 testCatalog).Perm
      [(some "alice_c", "c"), (some "alice_b", "b"), (none, "a"), (none, "a")]
    ∧ wildcardQueryC6 testCatalog
        = wildcardQueryC6 (testCatalog.filter fun t => t.name != "other_d")
    ∧ wildcardSelect [⟨"table_a", ["specialName"], [[some "alice_a"], [some "bob_a"]]⟩]
        "table_" "name" = [(none, "a"), (none, "a")] := by
  refine ⟨by decide, rfl, rfl⟩
